import Mathlib

/-!
Shallow embedding of `microscopic-etcd-registry` (src/lib/index.js, with the
variant library in src/unnamed/part_001 where it differs) and proofs about
its registry operations.

Serialization (`JsonUtils.stringify` / `JsonUtils.parse`), unique-id
generation and the backing etcd store are external collaborators of the
repository; stored record values are therefore modelled at the parse level:
`Option ServiceRecord`, where `none` stands for a stored blob on which
`JsonUtils.parse` throws (a malformed record) and `some r` for a well-formed
serialized record.
-/

namespace ETCDRegistry

/-- `const TTL_SECONDS = 120` (src/lib/index.js). -/
def TTL_SECONDS : Nat := 120

/-- `const SERVICES_KEY = 'services'`. -/
def SERVICES_KEY : String := "services"

/-- `const SERVICES_OPTIONS_KEY = 'services-options'`. -/
def SERVICES_OPTIONS_KEY : String := "services-options"

/-- A service record as assembled by `register`:
`{ id: Random.uuid(), name: name, connection: connectionConfig }`.
`connection` is opaque to the registry and is modelled as an opaque string. -/
structure ServiceRecord where
  id : String
  name : String
  connection : String
deriving DecidableEq

/-- JavaScript `x || d` on an optional numeric field: `undefined` and `0`
are falsy, any other number is returned unchanged. -/
def jsOr (x : Option Nat) (d : Nat) : Nat :=
  match x with
  | none => d
  | some t => if t = 0 then d else t

/-- The constructor `options` object.  `ttl` is the documented option; `tll`
is the misspelled field that the constructor actually assigns
(`this[ _options ].tll = this[ _options ].ttl || TTL_SECONDS`). -/
structure CtorOptions where
  ttl : Option Nat
  tll : Option Nat
deriving DecidableEq

/-- The constructor's option processing (src/lib/index.js line 39):
`this[ _options ] = options; this[ _options ].tll = this[ _options ].ttl || TTL_SECONDS`. -/
def initOptions (o : CtorOptions) : CtorOptions :=
  { o with tll := some (jsOr o.ttl TTL_SECONDS) }

/-- A value stored at a key: either a serialized service record (possibly
malformed, see module comment) or a serialized options blob. -/
inductive StoreVal where
  | serviceVal (r : Option ServiceRecord)
  | optionsVal (s : String)
deriving DecidableEq

/-- One `etcd.set(key, value, { ttl? })` call: the key, the value written,
and the TTL lease attached to the write (absent when the set options carry
no `ttl`, or carry `ttl: undefined`). -/
structure StoreWrite where
  key : String
  value : StoreVal
  ttl : Option Nat
deriving DecidableEq

/-- `_saveService(service)` (src/lib/index.js lines 115-119):
`key = path.join(SERVICES_KEY, service.name, service.id)`;
`etcd.set(key, stringify(service), { maxRetries: 3, ttl: this[_options].ttl })`.
`path.join` on plain segments is `/`-concatenation. -/
def saveService (cfg : CtorOptions) (s : ServiceRecord) : StoreWrite :=
  { key := SERVICES_KEY ++ "/" ++ s.name ++ "/" ++ s.id
  , value := StoreVal.serviceVal (some s)
  , ttl := cfg.ttl }

/-- `_saveServiceOptions(serviceName, options)` (src/lib/index.js lines 128-132):
`key = path.join(SERVICES_OPTIONS_KEY, serviceName)`;
`etcd.set(key, stringify(options), { maxRetries: 3 })` — no `ttl` in the
set options. -/
def saveServiceOptions (name : String) (opts : String) : StoreWrite :=
  { key := SERVICES_OPTIONS_KEY ++ "/" ++ name
  , value := StoreVal.optionsVal opts
  , ttl := none }

/-- `register(name, connectionConfig, options)` (src/lib/index.js):
assembles `{ id, name, connection }` with a generated id (passed here as
`genId`), calls `_saveService` then `_saveServiceOptions`, and returns the
id.  The result is the returned id together with the store writes issued,
in order. -/
def register (cfg : CtorOptions) (genId name connection opts : String) :
    String × List StoreWrite :=
  let service : ServiceRecord := { id := genId, name := name, connection := connection }
  (service.id, [saveService cfg service, saveServiceOptions service.name opts])

/-- Outcome of one `etcd.getSync(key, { recursive: true })` on the records
directory of a name, as inspected by `_getService`:
`err` — `result.err` was truthy; `noNodes` — `result.body`, `.node` or
`.node.nodes` missing; `nodes vals` — `.node.nodes` present with the given
list of stored record values (each at parse level, see module comment). -/
inductive SyncResult where
  | err
  | noNodes
  | nodes (vals : List (Option ServiceRecord))
deriving DecidableEq

/-- `services.node.nodes.map((node) => JsonUtils.parse(node.value))`:
JavaScript `map` applies `parse` left to right and the first malformed
value throws out of the whole `map`, so the result is `none` exactly when
some value is malformed. -/
def parseAll : List (Option ServiceRecord) → Option (List ServiceRecord)
  | [] => some []
  | none :: _ => none
  | some r :: vs =>
    match parseAll vs with
    | some rs => some (r :: rs)
    | none => none

/-- The store-read part of one `_getService` attempt body: throw (`none`)
on `result.err`, on a missing/empty `node.nodes` list
(`throw new Error('Not found any node of service')`), or on a malformed
value inside the `map`; otherwise the parsed node list. -/
def tryStore : SyncResult → Option (List ServiceRecord)
  | SyncResult.err => none
  | SyncResult.noNodes => none
  | SyncResult.nodes vals => if vals.length = 0 then none else parseAll vals

/-- One full `_getService` attempt body (the `try` block):
`let nodes = this[_services].get(name); if (nodes && nodes.length) return nodes;`
then the store read.  `none` means the attempt threw. -/
def attemptOnce (cacheNodes : Option (List ServiceRecord)) (res : SyncResult) :
    Option (List ServiceRecord) :=
  match cacheNodes with
  | some ns => if ns.length ≠ 0 then some ns else tryStore res
  | none => tryStore res

/-- `_getService(maxRetries, name)` (src/lib/index.js lines 185-217, identical
in src/unnamed/part_001): runs the attempt body; on a throw, returns
`undefined` when `maxRetries <= 0` and otherwise recurses with
`maxRetries - 1`.  `readAt i` is what the store returns on the `i`-th read
(reads race concurrent writes and expiry, so attempts may observe different
results); the cache is not mutated during the synchronous recursion. -/
def getServiceRec (cacheNodes : Option (List ServiceRecord))
    (readAt : Nat → SyncResult) : Nat → Nat → Option (List ServiceRecord)
  | attempt, m =>
    match attemptOnce cacheNodes (readAt attempt) with
    | some ns => some ns
    | none =>
      match m with
      | 0 => none
      | m' + 1 => getServiceRec cacheNodes readAt (attempt + 1) m'

/-- The registry's read-relevant state for one moment: the constructor
options, the in-memory `_services` cache, and the store's response to the
`i`-th read of each name's records directory. -/
structure RegistryState where
  cfg : CtorOptions
  cache : String → Option (List ServiceRecord)
  readAt : String → Nat → SyncResult

/-- `getService(name)`: `return this._getService(5, name)`. -/
def getService (st : RegistryState) (name : String) : Option (List ServiceRecord) :=
  getServiceRec (st.cache name) (st.readAt name) 0 5

/-- `renew(name, id)` (src/lib/index.js lines 73-87, identical in
src/unnamed/part_001), as the list of store writes it issues:
`nodes = this.getService(name)`; bail out on a non-array (`undefined`);
`node = nodes.find((node) => node.id === id)`; bail out when absent;
otherwise `this._saveService(node)`. -/
def renew (st : RegistryState) (name id : String) : List StoreWrite :=
  match getService st name with
  | none => []
  | some nodes =>
    match nodes.find? (fun n => n.id == id) with
    | none => []
    | some node => [saveService st.cfg node]

/-- `getServiceNode(name)` (src/unnamed/part_001 lines 104-109):
`nodes = this.getService(name); return nodes && nodes.length ? nodes[0] : undefined`. -/
def getServiceNode (st : RegistryState) (name : String) : Option ServiceRecord :=
  match getService st name with
  | some nodes => if nodes.length ≠ 0 then nodes[0]? else none
  | none => none

/-- `const MAX_RETRIES = 10` in `_getServiceOptions`. -/
def MAX_RETRIES : Int := 10

/-- What one step of the `_getServiceOptions` retry loop does. -/
structure OptionsStepResult where
  resolved : Option (Option String)
  schedulesNext : Bool
  nextDelay : Int
deriving DecidableEq

/-- One callback execution of the inner `_getServiceOptions(maxRetries, resolve)`
(src/lib/index.js lines 235-253).  `read` is what `etcd.get` handed the
callback: `none` when `error || !body || !body.node`, `some v` when a node
with value `v` (an options blob, opaque here) was found.  On a failed read
the code resolves `undefined` when `maxRetries <= 0` — and then, without
returning, still schedules the next attempt after
`(MAX_RETRIES - maxRetries) * 500`; on a successful read it resolves the
parsed value and schedules nothing. -/
def optionsStep (maxRetries : Int) (read : Option String) : OptionsStepResult :=
  match read with
  | none =>
    { resolved := if maxRetries ≤ 0 then some none else none
    , schedulesNext := true
    , nextDelay := (MAX_RETRIES - maxRetries) * 500 }
  | some v =>
    { resolved := some (some v)
    , schedulesNext := false
    , nextDelay := 0 }

/-- An entry as the external store holds it after a write at time `t`. -/
structure StoreEntry where
  key : String
  value : StoreVal
  ttl : Option Nat
  writtenAt : Nat
deriving DecidableEq

/-- Modelled from the spec: the store's TTL lease semantics (glossary:
"a time-bounded validity period attached to a stored key; the store
removes the key automatically at expiry unless refreshed").  An entry
written with no lease never expires; one written with lease `ttl` at time
`writtenAt` is live exactly while `t < writtenAt + ttl`. -/
def liveAt (t : Nat) (e : StoreEntry) : Bool :=
  match e.ttl with
  | none => true
  | some ttl => decide (t < e.writtenAt + ttl)

/-- The store entry produced by executing a write at time `t`. -/
def writeEntry (t : Nat) (w : StoreWrite) : StoreEntry :=
  { key := w.key, value := w.value, ttl := w.ttl, writtenAt := t }

/-! ### Helper lemmas -/

theorem parseAll_length (vs : List (Option ServiceRecord)) (rs : List ServiceRecord)
    (h : parseAll vs = some rs) : rs.length = vs.length := by
  induction vs generalizing rs with
  | nil => simp [parseAll] at h; simp [h]
  | cons v vs ih =>
    cases v with
    | none => simp [parseAll] at h
    | some r =>
      simp only [parseAll] at h
      cases hv : parseAll vs with
      | none => rw [hv] at h; simp at h
      | some rs₁ =>
        rw [hv] at h
        simp only [Option.some.injEq] at h
        subst h
        simp [ih rs₁ hv]

theorem parseAll_of_mem_none (vs : List (Option ServiceRecord))
    (h : none ∈ vs) : parseAll vs = none := by
  induction vs with
  | nil => simp at h
  | cons v vs ih =>
    cases v with
    | none => rfl
    | some r =>
      have hv : none ∈ vs := by
        rcases List.mem_cons.1 h with h₁ | h₁
        · exact absurd h₁.symm (by simp)
        · exact h₁
      simp only [parseAll]
      rw [ih hv]

theorem tryStore_ne_nil (res : SyncResult) (ns : List ServiceRecord)
    (h : tryStore res = some ns) : ns ≠ [] := by
  cases res with
  | err => simp [tryStore] at h
  | noNodes => simp [tryStore] at h
  | nodes vals =>
    simp only [tryStore] at h
    by_cases hl : vals.length = 0
    · rw [if_pos hl] at h; simp at h
    · rw [if_neg hl] at h
      have := parseAll_length vals ns h
      intro hnil
      subst hnil
      simp at this
      exact hl this.symm

theorem attemptOnce_ne_nil (c : Option (List ServiceRecord)) (res : SyncResult)
    (ns : List ServiceRecord) (h : attemptOnce c res = some ns) : ns ≠ [] := by
  cases c with
  | none => exact tryStore_ne_nil res ns h
  | some l =>
    simp only [attemptOnce] at h
    by_cases hl : l.length ≠ 0
    · rw [if_pos hl] at h
      cases h
      intro hnil
      subst hnil
      simp at hl
    · rw [if_neg hl] at h
      exact tryStore_ne_nil res ns h

theorem getServiceRec_ne_nil (c : Option (List ServiceRecord))
    (readAt : Nat → SyncResult) (attempt m : Nat) (ns : List ServiceRecord)
    (h : getServiceRec c readAt attempt m = some ns) : ns ≠ [] := by
  induction m generalizing attempt with
  | zero =>
    rw [getServiceRec] at h
    cases ha : attemptOnce c (readAt attempt) with
    | none => rw [ha] at h; simp at h
    | some l =>
      rw [ha] at h
      cases h
      exact attemptOnce_ne_nil c (readAt attempt) ns ha
  | succ m ih =>
    rw [getServiceRec] at h
    cases ha : attemptOnce c (readAt attempt) with
    | none => rw [ha] at h; exact ih (attempt + 1) h
    | some l =>
      rw [ha] at h
      cases h
      exact attemptOnce_ne_nil c (readAt attempt) ns ha

theorem getServiceRec_eq_none (c : Option (List ServiceRecord))
    (readAt : Nat → SyncResult) (attempt m : Nat)
    (h : ∀ i, attemptOnce c (readAt i) = none) :
    getServiceRec c readAt attempt m = none := by
  induction m generalizing attempt with
  | zero => rw [getServiceRec, h attempt]
  | succ m ih => rw [getServiceRec, h attempt]; exact ih (attempt + 1)

theorem attemptOnce_cache_miss (c : Option (List ServiceRecord)) (res : SyncResult)
    (hc : c = none ∨ c = some []) : attemptOnce c res = tryStore res := by
  rcases hc with h | h <;> subst h <;> simp [attemptOnce]

/-! ### Claim theorems -/

/-- C1: the claim says that when the constructor options carry no `ttl`
field, every record write carries a TTL lease of 120.  The code does not do
this: the constructor assigns the 120 default to the misspelled field
`tll`, so the `ttl` field stays absent and `_saveService` attaches no lease
(`ttl: undefined`) to the record write.  This theorem evaluates the code at
that input: after `initOptions` on an options object without `ttl`, the
misspelled `tll` field holds 120 while the record write's TTL is absent,
not 120. -/
theorem c1_default_ttl_goes_to_misspelled_field :
    (initOptions { ttl := none, tll := none }).tll = some 120 ∧
    (saveService (initOptions { ttl := none, tll := none })
      { id := "id0", name := "svc", connection := "conn" }).ttl = none ∧
    (saveService (initOptions { ttl := none, tll := none })
      { id := "id0", name := "svc", connection := "conn" }).ttl ≠ some 120 := by
  refine ⟨rfl, rfl, by simp [saveService, initOptions]⟩

/-- C4: the claim says a retried read, after exhausting its attempt budget,
terminates with a single terminal outcome and schedules no further
attempts.  In `_getServiceOptions` the exhausted branch resolves
`undefined` but is missing a `return`, so the same callback still schedules
the next attempt; scheduling continues at every negative budget with a
growing delay.  This theorem evaluates the code at the exhausted budget:
at `maxRetries = 0` a failing read both resolves `undefined` and schedules
a retry (delay 5000), and at budget `-3` it is still scheduling (delay
6500). -/
theorem c4_options_exhaustion_keeps_scheduling :
    optionsStep 0 none =
      { resolved := some none, schedulesNext := true, nextDelay := 5000 } ∧
    optionsStep (-3) none =
      { resolved := some none, schedulesNext := true, nextDelay := 6500 } := by
  exact ⟨rfl, rfl⟩

/-- C5 counterexample: the claim says a stored value that fails to
deserialize propagates as a distinguishable failure and is not retried.
Concretely: (1) with the cache empty and the store answering every read of
a name with a single malformed record, `_getService(5, name)` returns
`undefined` — exactly the same outcome as (2) a plain not-found lookup, so
no distinguishable failure reaches the caller; and (3) an attempt that hits
a malformed value IS retried: when the first read returns a malformed
value and the second a well-formed one, the lookup succeeds with the
second read's record. -/
theorem c5_counterexample_malformed_is_retried_and_collapses :
    getServiceRec none (fun _ => SyncResult.nodes [none]) 0 5 = none ∧
    getServiceRec none (fun _ => SyncResult.err) 0 5 = none ∧
    getServiceRec none
      (fun i => if i = 0 then SyncResult.nodes [none]
        else SyncResult.nodes [some { id := "a", name := "svc", connection := "conn" }]) 0 5 =
      some [{ id := "a", name := "svc", connection := "conn" }] := by
  refine ⟨rfl, rfl, rfl⟩

/-- C7: every record registered under `name` with generated id is written at
`services/<name>/<id>` and the options blob at `services-options/<name>`;
the fixed namespace segments are the strings `services` and
`services-options`. -/
theorem c7_storage_layout (cfg : CtorOptions) (genId name connection opts : String) :
    SERVICES_KEY = "services" ∧
    SERVICES_OPTIONS_KEY = "services-options" ∧
    (register cfg genId name connection opts).2.map StoreWrite.key =
      ["services" ++ "/" ++ name ++ "/" ++ genId,
       "services-options" ++ "/" ++ name] := by
  refine ⟨rfl, rfl, rfl⟩

/-- C8: `getService` never returns an empty list: for every registry state
and name the result is either the not-found outcome (`undefined`, modelled
`none`) or a list with at least one record.  The cache path only returns a
list after a `nodes.length` check, and the store path throws
`'Not found any node of service'` on an empty node list, so an empty list
can never escape. -/
theorem c8_getService_never_empty (st : RegistryState) (name : String) :
    getService st name = none ∨
    ∃ x xs, getService st name = some (x :: xs) := by
  cases h : getService st name with
  | none => exact Or.inl rfl
  | some nodes =>
    cases hn : nodes with
    | nil =>
      subst hn
      exact absurd rfl (getServiceRec_ne_nil (st.cache name) (st.readAt name) 0 5 [] h)
    | cons x xs => exact Or.inr ⟨x, xs, rfl⟩

/-- A sample record used in concrete evaluations. -/
def sampleRecord : ServiceRecord := { id := "a", name := "svc", connection := "conn" }

/-- A sample state whose cache holds `[sampleRecord]` for every name and
whose store errors on every read. -/
def cacheHitState : RegistryState :=
  { cfg := initOptions { ttl := none, tll := none }
  , cache := fun _ => some [sampleRecord]
  , readAt := fun _ _ => SyncResult.err }

/-- A sample state with an empty cache and a store that errors on every
read. -/
def cacheMissState : RegistryState :=
  { cfg := initOptions { ttl := none, tll := none }
  , cache := fun _ => none
  , readAt := fun _ _ => SyncResult.err }

/-- C2: `getService name` resolves in order: (a) a cache hit with at least
one record is returned as is, whatever the store would answer (the store is
not contacted); (b) on a cache miss (no entry, or an empty cached list) a
direct store read is issued and a successful first read is returned; (c) on
a cache miss, if every store read attempt fails, the call resolves to the
not-found outcome `undefined` (modelled `none`) rather than throwing or
returning a list. -/
theorem c2_resolution_order (st : RegistryState) (name : String) :
    (∀ ns, st.cache name = some ns → ns ≠ [] →
      ∀ rd, getService { cfg := st.cfg, cache := st.cache, readAt := rd } name = some ns) ∧
    ((st.cache name = none ∨ st.cache name = some []) →
      ∀ ns, tryStore (st.readAt name 0) = some ns → getService st name = some ns) ∧
    ((st.cache name = none ∨ st.cache name = some []) →
      (∀ i, tryStore (st.readAt name i) = none) → getService st name = none) := by
  refine ⟨?_, ?_, ?_⟩
  · intro ns hc hne rd
    have hlen : ns.length ≠ 0 := by simpa using hne
    unfold getService
    rw [getServiceRec]
    simp only [hc, attemptOnce, if_pos hlen]
  · intro hc ns h0
    unfold getService
    rw [getServiceRec, attemptOnce_cache_miss _ _ hc, h0]
  · intro hc hall
    unfold getService
    exact getServiceRec_eq_none _ _ 0 5
      (fun i => by rw [attemptOnce_cache_miss _ _ hc, hall i])

/-- Witness for C2: on `cacheHitState` the cached record list is returned
even though the store errors on every read, and on `cacheMissState` (empty
cache, store always erroring) the call resolves to `undefined`. -/
theorem c2_witness :
    getService cacheHitState "svc" = some [sampleRecord] ∧
    getService cacheMissState "svc" = none := by
  constructor
  · exact (c2_resolution_order cacheHitState "svc").1 [sampleRecord] rfl
      (by simp) cacheHitState.readAt
  · exact (c2_resolution_order cacheMissState "svc").2.2 (Or.inl rfl) (fun i => rfl)

/-- C3: when no record in the current record set for `name` has the given
id — including when the name resolves to no records at all — `renew` is a
silent no-op: it returns normally (the embedding is a total function) and
issues no store write, leaving every record unchanged. -/
theorem c3_renew_unknown_id_is_noop (st : RegistryState) (name id : String)
    (h : ∀ r ∈ (getService st name).getD [], r.id ≠ id) :
    renew st name id = [] := by
  cases hg : getService st name with
  | none => simp [renew, hg]
  | some nodes =>
    have hf : nodes.find? (fun n => n.id == id) = none := by
      rw [List.find?_eq_none]
      intro x hx
      have hxid : x.id ≠ id := h x (by rw [hg]; simpa using hx)
      simpa using hxid
    simp [renew, hg, hf]

/-- Witness for C3: renewing the unknown id `zzz` on `cacheHitState` (whose
only record for `svc` has id `a`) issues no write. -/
theorem c3_witness :
    (∀ r ∈ (getService cacheHitState "svc").getD [], r.id ≠ "zzz") ∧
    renew cacheHitState "svc" "zzz" = [] := by
  have h : ∀ r ∈ (getService cacheHitState "svc").getD [], r.id ≠ "zzz" := by
    decide
  exact ⟨h, c3_renew_unknown_id_is_noop cacheHitState "svc" "zzz" h⟩

/-- C5 (amended): a stored value that fails to deserialize during the
store-fallback lookup does not propagate to the caller as a
distinguishable failure; the attempt that hit it throws internally and is
retried like any transient failure, and when every attempt observes a
malformed value the call collapses to the same not-found outcome
(`undefined`) as an absent service. -/
theorem c5_amended_malformed_collapses_to_not_found
    (cacheNodes : Option (List ServiceRecord)) (readAt : Nat → SyncResult)
    (hc : cacheNodes = none ∨ cacheNodes = some [])
    (hm : ∀ i, ∃ vals, readAt i = SyncResult.nodes vals ∧ none ∈ vals) :
    getServiceRec cacheNodes readAt 0 5 = none := by
  apply getServiceRec_eq_none
  intro i
  obtain ⟨vals, hv, hmem⟩ := hm i
  rw [attemptOnce_cache_miss _ _ hc, hv]
  simp only [tryStore]
  have hlen : vals.length ≠ 0 := by
    intro h0
    rw [List.length_eq_zero] at h0
    subst h0
    simp at hmem
  rw [if_neg hlen, parseAll_of_mem_none vals hmem]

/-- Witness for C5 (amended): with an empty cache and a store answering
every read with a single malformed record, the lookup resolves to
`undefined`. -/
theorem c5_amended_witness :
    (∀ i : Nat, ∃ vals, (fun _ : Nat => SyncResult.nodes [none]) i =
      SyncResult.nodes vals ∧ none ∈ vals) ∧
    getServiceRec none (fun _ : Nat => SyncResult.nodes [none]) 0 5 = none := by
  have hm : ∀ i : Nat, ∃ vals, (fun _ : Nat => SyncResult.nodes [none]) i =
      SyncResult.nodes vals ∧ none ∈ vals :=
    fun _ => ⟨[none], rfl, by simp⟩
  exact ⟨hm, c5_amended_malformed_collapses_to_not_found none _ (Or.inl rfl) hm⟩

/-- C6: when the current record set for `name` contains a record with the
given id, `renew` writes back exactly the record the lookup found: a single
store write at the record's original path
`services/<record.name>/<record.id>`, whose value is that record with every
field unchanged, carrying the TTL lease the save path attaches
(`this[_options].ttl`). -/
theorem c6_renew_rewrites_found_record (st : RegistryState) (name id : String)
    (nodes : List ServiceRecord)
    (hg : getService st name = some nodes)
    (hmem : ∃ x ∈ nodes, x.id = id) :
    ∃ r ∈ nodes, r.id = id ∧
      renew st name id =
        [{ key := SERVICES_KEY ++ "/" ++ r.name ++ "/" ++ r.id
         , value := StoreVal.serviceVal (some r)
         , ttl := st.cfg.ttl }] := by
  have hsome : (nodes.find? (fun n => n.id == id)).isSome := by
    rw [List.find?_isSome]
    obtain ⟨x, hx, hxid⟩ := hmem
    exact ⟨x, hx, by simp [hxid]⟩
  obtain ⟨r, hr⟩ := Option.isSome_iff_exists.1 hsome
  refine ⟨r, List.mem_of_find?_eq_some hr, ?_, ?_⟩
  · have := List.find?_some hr
    simpa using this
  · simp [renew, hg, hr, saveService]

/-- Witness for C6: renewing id `a` on `cacheHitState` rewrites exactly
`sampleRecord` at `services/svc/a` with the configured TTL (absent here). -/
theorem c6_witness :
    ∃ r ∈ [sampleRecord], r.id = "a" ∧
      renew cacheHitState "svc" "a" =
        [{ key := SERVICES_KEY ++ "/" ++ r.name ++ "/" ++ r.id
         , value := StoreVal.serviceVal (some r)
         , ttl := cacheHitState.cfg.ttl }] :=
  c6_renew_rewrites_found_record cacheHitState "svc" "a" [sampleRecord] rfl
    ⟨sampleRecord, by simp, rfl⟩

/-- C10: the separate options write carries no TTL lease while the record
write carries the configured one; hence for a configured lease `T`, at any
time past the record's expiry the record entry is no longer live while the
options entry still is, and in the resulting state (empty cache, record
reads finding no nodes) `getService` resolves to not-found while a
`getServiceOptions` read that finds the stored options resolves to them. -/
theorem c10_options_write_carries_no_ttl (cfg : CtorOptions) (T : Nat)
    (genId name connection opts : String) (t0 t : Nat)
    (hT : cfg.ttl = some T) (ht : t0 + T ≤ t) :
    (register cfg genId name connection opts).2.map StoreWrite.ttl = [some T, none] ∧
    liveAt t (writeEntry t0 (saveService cfg
      { id := genId, name := name, connection := connection })) = false ∧
    liveAt t (writeEntry t0 (saveServiceOptions name opts)) = true ∧
    getServiceRec none (fun _ => SyncResult.noNodes) 0 5 = none ∧
    optionsStep MAX_RETRIES (some opts) =
      { resolved := some (some opts), schedulesNext := false, nextDelay := 0 } := by
  refine ⟨?_, ?_, rfl, rfl, rfl⟩
  · simp [register, saveService, saveServiceOptions, hT]
  · simp only [liveAt, writeEntry, saveService, hT]
    simp only [decide_eq_false_iff_not, not_lt]
    exact ht

/-- Witness for C10: a registry configured with `ttl = 1`, a registration
at time 0 and the observation time 1. -/
theorem c10_witness :
    (register (initOptions { ttl := some 1, tll := none })
      "id0" "svc" "conn" "opts").2.map StoreWrite.ttl = [some 1, none] ∧
    liveAt 1 (writeEntry 0 (saveService (initOptions { ttl := some 1, tll := none })
      { id := "id0", name := "svc", connection := "conn" })) = false ∧
    liveAt 1 (writeEntry 0 (saveServiceOptions "svc" "opts")) = true ∧
    getServiceRec none (fun _ => SyncResult.noNodes) 0 5 = none ∧
    optionsStep MAX_RETRIES (some "opts") =
      { resolved := some (some "opts"), schedulesNext := false, nextDelay := 0 } :=
  c10_options_write_carries_no_ttl (initOptions { ttl := some 1, tll := none })
    1 "id0" "svc" "conn" "opts" 0 1 rfl (by decide)

/-- C9: `getServiceNode name` (src/unnamed/part_001) returns the first
record of `getService name` when that result is a non-empty list, and
`undefined` otherwise — both when `getService` returns `undefined` and
when it returns an empty list — and, being a total match, never throws. -/
theorem c9_getServiceNode_is_first (st : RegistryState) (name : String) :
    getServiceNode st name =
      match getService st name with
      | some (x :: _) => some x
      | some [] => none
      | none => none := by
  unfold getServiceNode
  cases h : getService st name with
  | none => rfl
  | some nodes =>
    cases nodes with
    | nil => rfl
    | cons x xs => simp

end ETCDRegistry
